import Mathlib

/-!
# Verification of the MABE2 genome-manipulation conversion utility

Shallow embedding of `src/tools/conversion/genome_manipulation.py`.

Python strings are modelled as `List Char`; Python dictionaries as
association lists where a fresh insertion is *prepended* and lookup takes
the *first* match, so that a later insertion under the same key shadows an
earlier one — exactly the overwrite semantics of `dict.__setitem__`.
A text file is modelled as its list of lines (each line without its
trailing newline; the scripts only ever tokenize lines with `str.split()`,
which discards the trailing newline anyway).
Fallible Python code (uncaught `IndexError` / `ValueError`, and the
process-terminating `throw_error`) is modelled with `Except`.
-/

set_option autoImplicit false

namespace GenomeManip

/-- The Python whitespace characters recognised by `str.strip` / `str.split`
(ASCII range: space, tab, newline, carriage return, vertical tab, form feed). -/
def pySpace (c : Char) : Bool :=
  c == ' ' || c == '\t' || c == '\n' || c == '\r' || c == '\x0b' || c == '\x0c'

/-- Python `str.strip()`: drop leading and trailing whitespace. -/
def pyStrip (s : List Char) : List Char :=
  ((s.dropWhile pySpace).reverse.dropWhile pySpace).reverse

/-- Python `str.split(sep)` for a one-character separator `sep`:
split at every occurrence, keeping empty fields (`"a\nb\n".split('\n') =
["a","b",""]`). -/
def pySplitChar (sep : Char) : List Char → List (List Char)
  | [] => [[]]
  | c :: rest =>
    match pySplitChar sep rest with
    | [] => [[]]
    | l :: ls => if c == sep then [] :: l :: ls else (c :: l) :: ls

/-- Split at every character satisfying `p`, keeping empty fields. -/
def pySplitP (p : Char → Bool) : List Char → List (List Char)
  | [] => [[]]
  | c :: rest =>
    match pySplitP p rest with
    | [] => [[]]
    | l :: ls => if p c then [] :: l :: ls else (c :: l) :: ls

/-- Python `str.split()` with no argument: the maximal runs of
non-whitespace characters (equivalently: split at whitespace and drop the
empty fields). -/
def pySplitWS (s : List Char) : List (List Char) :=
  (pySplitP pySpace s).filter (fun t => !t.isEmpty)

/-- Python `line.replace(',', '')`: delete every comma. -/
def stripCommas (s : List Char) : List Char :=
  s.filter (fun c => c != ',')

/-- Python `str.isdigit()` (ASCII model): nonempty and all digits. -/
def pyIsDigit (s : List Char) : Bool :=
  !s.isEmpty && s.all Char.isDigit

/-- Numeric value of a digit string. -/
def digitsVal (s : List Char) : Nat :=
  s.foldl (fun acc c => acc * 10 + (c.toNat - '0'.toNat)) 0

/-- Python `int(s)` on a whitespace-free token: an optional sign followed by
at least one digit, otherwise a `ValueError` (modelled as `none`). -/
def pyInt (s : List Char) : Option Int :=
  match s with
  | '-' :: rest => if pyIsDigit rest then some (-(digitsVal rest : Int)) else none
  | '+' :: rest => if pyIsDigit rest then some ((digitsVal rest : Int)) else none
  | _ => if pyIsDigit s then some ((digitsVal s : Int)) else none

/-- A "clean token": nonempty and without any whitespace character.  Every
token produced by `str.split()` — in particular every `char` and `name`
field loaded from an instruction-set file — is clean. -/
def cleanToken (s : List Char) : Bool :=
  !s.isEmpty && s.all (fun c => !pySpace c)

/-- Exceptions raised (uncaught) by the Python code. -/
inductive PyExc where
  | indexError
  | valueError
deriving DecidableEq, Repr

/-- `class Instruction`: a data record for one Avida instruction
(`genome_manipulation.py`, lines 40-48). -/
structure Instruction where
  index : Int
  id : Int
  char : List Char
  name : List Char
deriving DecidableEq, Repr, Inhabited

/-- First-match lookup in an association list.  With insertion modelled as
prepending, this is Python `dict` lookup (the most recent binding of a key
wins). -/
def lookupA {α β : Type} [DecidableEq α] : List (α × β) → α → Option β
  | [], _ => none
  | (k, v) :: rest, k' => if k' = k then some v else lookupA rest k'

/-- The four dictionaries of `class GenomeManipulator`
(`genome_manipulation.py`, lines 54-58). -/
structure GenomeManipulator where
  index_map : List (Int × Instruction)
  id_map : List (Int × Instruction)
  char_map : List (List Char × Instruction)
  name_map : List (List Char × Instruction)
deriving DecidableEq, Repr

/-- A freshly constructed `GenomeManipulator` (all four dicts empty). -/
def emptyGM : GenomeManipulator := ⟨[], [], [], []⟩

/-- The four dictionary assignments in the loader's row loop
(`self.index_map[inst_index] = inst` … `self.name_map[inst_name] = inst`,
lines 109-113): prepend the new binding to each map. -/
def insertInst (M : GenomeManipulator) (inst : Instruction) : GenomeManipulator :=
  ⟨(inst.index, inst) :: M.index_map,
   (inst.id, inst) :: M.id_map,
   (inst.char, inst) :: M.char_map,
   (inst.name, inst) :: M.name_map⟩

/-- Load a list of already-parsed rows into the four maps, in file order. -/
def loadInsts (insts : List Instruction) : GenomeManipulator :=
  insts.foldl insertInst emptyGM

/-- The four column positions `index_col_idx`, `id_col_idx`,
`char_col_idx`, `name_col_idx` (lines 66-69). -/
structure ColIdx where
  index : Nat
  id : Nat
  char : Nat
  name : Nat
deriving DecidableEq, Repr

/-- The default column order `{index=0, id=1, char=2, name=3}`. -/
def defaultCols : ColIdx := ⟨0, 1, 2, 3⟩

/-- Parse one data line of the instruction-set file (lines 102-108): strip
commas, split on whitespace, subscript the four columns (an out-of-range
subscript raises `IndexError`), parse index and id with `int` (raising
`ValueError` on a non-numeric field), take char and name literally. -/
def parseLine (cols : ColIdx) (line : List Char) : Except PyExc Instruction :=
  let parts := pySplitWS (stripCommas line)
  match parts[cols.index]? with
  | none => .error .indexError
  | some tIndex =>
    match pyInt tIndex with
    | none => .error .valueError
    | some vIndex =>
      match parts[cols.id]? with
      | none => .error .indexError
      | some tId =>
        match pyInt tId with
        | none => .error .valueError
        | some vId =>
          match parts[cols.char]? with
          | none => .error .indexError
          | some tChar =>
            match parts[cols.name]? with
            | none => .error .indexError
            | some tName => .ok ⟨vIndex, vId, tChar, tName⟩

/-- The loader's `for line in fp` loop (lines 102-114): parse each line and
insert the record into all four maps; the first uncaught exception aborts. -/
def processLines (cols : ColIdx) :
    List (List Char) → GenomeManipulator → Except PyExc GenomeManipulator
  | [], M => .ok M
  | l :: rest, M =>
    match parseLine cols l with
    | .error e => .error e
    | .ok inst => processLines cols rest (insertInst M inst)

/-- The header-scanning loop (lines 84-96), with the running position `i`
and the accumulated column indices: a token whose `strip()` equals one of
the four literal column names records its position (a later duplicate
overwrites an earlier one); any other token is only reported
(`print('Found unknown column: ...')`), collected here as a warning list. -/
def parseHeaderAux : List (List Char) → Nat → ColIdx → ColIdx × List (List Char)
  | [], _, acc => (acc, [])
  | t :: ts, i, acc =>
    let part := pyStrip t
    if part = "index".data then parseHeaderAux ts (i + 1) ⟨i, acc.id, acc.char, acc.name⟩
    else if part = "id".data then parseHeaderAux ts (i + 1) ⟨acc.index, i, acc.char, acc.name⟩
    else if part = "char".data then parseHeaderAux ts (i + 1) ⟨acc.index, acc.id, i, acc.name⟩
    else if part = "name".data then parseHeaderAux ts (i + 1) ⟨acc.index, acc.id, acc.char, i⟩
    else ((parseHeaderAux ts (i + 1) acc).1, part :: (parseHeaderAux ts (i + 1) acc).2)

/-- Scan a header token list starting from the default column order. -/
def parseHeader (tokens : List (List Char)) : ColIdx × List (List Char) :=
  parseHeaderAux tokens 0 defaultCols

/-- `GenomeManipulator.read_instruction_set_file` (lines 65-114) over a file
given as its list of lines.  Read the first line, strip commas, split on
whitespace (an empty token list makes `line_parts[0]` raise `IndexError`);
if the first token is numeric, `fp.seek(0)` makes the row loop re-read the
whole file with the default column order; otherwise the first line is
consumed as a header and the row loop reads the remaining lines with the
column order the header declares. -/
def read_instruction_set_file (fileLines : List (List Char)) :
    Except PyExc GenomeManipulator :=
  let firstLine := (fileLines.head?).getD []
  match pySplitWS (stripCommas firstLine) with
  | [] => .error .indexError
  | t :: ts =>
    if pyIsDigit (stripCommas t) then
      processLines defaultCols fileLines emptyGM
    else
      processLines (parseHeader (t :: ts)).1 fileLines.tail emptyGM

/-- The two errors raised through `throw_error` by the conversions. -/
inductive ConvError where
  | unknownSymbol (c : Char)
  | unknownName (n : List Char)
deriving DecidableEq, Repr

/-- `GenomeManipulator.convert_chars_to_names` (lines 120-126): for each
character of `s`, look it up in `char_map` (a missing character reaches
`throw_error('Unknown symbol: ' + c)`), and append the record's name
followed by a newline. -/
def convert_chars_to_names (M : GenomeManipulator) :
    List Char → Except ConvError (List Char)
  | [] => .ok []
  | c :: rest =>
    match lookupA M.char_map [c] with
    | none => .error (.unknownSymbol c)
    | some inst =>
      match convert_chars_to_names M rest with
      | .error e => .error e
      | .ok out => .ok (inst.name ++ '\n' :: out)

/-- `GenomeManipulator.convert_names_to_chars` (lines 131-140): for each
entry, `strip()` it, skip it if empty, look it up in `name_map` (a missing
name reaches `throw_error('Unknown name: ' + s)`), and append the record's
char. -/
def convert_names_to_chars (M : GenomeManipulator) :
    List (List Char) → Except ConvError (List Char)
  | [] => .ok []
  | s :: rest =>
    let t := pyStrip s
    if t.isEmpty then convert_names_to_chars M rest
    else
      match lookupA M.name_map t with
      | none => .error (.unknownName t)
      | some inst =>
        match convert_names_to_chars M rest with
        | .error e => .error e
        | .ok out => .ok (inst.char ++ out)

/-- The message string each conversion hands to `throw_error`. -/
def errorMessage : ConvError → List Char
  | .unknownSymbol c => "Unknown symbol: ".data ++ [c]
  | .unknownName n => "Unknown name: ".data ++ n

/-- `throw_error` (lines 4-6): print `'\x1b[91mError!\x1b[0m'` followed by
the message, then `quit()`.  `quit()` raises `SystemExit(None)`, and a
`SystemExit` whose code is `None` terminates the Python process with exit
status `0`; the result is the printed line paired with that exit status. -/
def throw_error (error_str : List Char) : List Char × Nat :=
  ("\x1b[91mError!\x1b[0m ".data ++ error_str, 0)

/-- Process-level outcome of running one conversion from the command-line
entry point (lines 142-155): an in-conversion `throw_error` prints the
error line and terminates the process; otherwise the converted string is
what the script goes on to print, and the eventual exit status is `0`. -/
def runConversionProcess (r : Except ConvError (List Char)) : List Char × Nat :=
  match r with
  | .error e => throw_error (errorMessage e)
  | .ok out => (out, 0)

/-- A file system: filename-to-contents bindings, newest first. -/
def FileSys : Type := List (List Char × List Char)

/-- `write_to_file` (lines 20-24): `s[-1]` on the empty string raises
`IndexError` *before* `open(filename, 'w')` runs, so the file system is
returned unchanged; on a nonempty string a trailing newline is appended
when missing and the file is (over)written. -/
def write_to_file (fs : FileSys) (filename : List Char) (s : List Char) :
    Except PyExc Unit × FileSys :=
  match s.getLast? with
  | none => (.error .indexError, fs)
  | some c =>
    let s' := if c != '\n' then s ++ ['\n'] else s
    (.ok (), (filename, s') :: fs)

/-! ## Concrete instruction tables used by witnesses and counterexamples -/

/-- The row `(0, 0, 'a', "nop-A")` of the spec's concrete example. -/
def nopA : Instruction := ⟨0, 0, "a".data, "nop-A".data⟩

/-- The row `(1, 1, 'b', "nop-B")` of the spec's concrete example. -/
def nopB : Instruction := ⟨1, 1, "b".data, "nop-B".data⟩

/-- The two-row example table. -/
def demoInsts : List Instruction := [nopA, nopB]

/-- The example table loaded into a manipulator. -/
def demoM : GenomeManipulator := loadInsts demoInsts

/-- A row sharing `nopA`'s index `0` but with a distinct id, char and name. -/
def dupB : Instruction := ⟨0, 1, "b".data, "nop-B".data⟩

/-- A headerless table file whose two rows both carry index `0`. -/
def dupFile : List (List Char) := ["0 0 a nop-A".data, "0 1 b nop-B".data]

/-- An instruction record is reachable from a manipulator when some key of
one of its four dictionaries maps to it. -/
def reachableFrom (M : GenomeManipulator) (r : Instruction) : Prop :=
  (∃ k, lookupA M.index_map k = some r) ∨ (∃ k, lookupA M.id_map k = some r)
  ∨ (∃ k, lookupA M.char_map k = some r) ∨ (∃ k, lookupA M.name_map k = some r)

/-! ## Helper lemmas -/

lemma foldl_insertInst_index_map (insts : List Instruction) (M : GenomeManipulator) :
    (List.foldl insertInst M insts).index_map
      = (insts.map (fun i => (i.index, i))).reverse ++ M.index_map := by
  induction insts generalizing M with
  | nil => simp
  | cons i is ih => simp [ih, insertInst, List.reverse_cons, List.append_assoc]

lemma foldl_insertInst_id_map (insts : List Instruction) (M : GenomeManipulator) :
    (List.foldl insertInst M insts).id_map
      = (insts.map (fun i => (i.id, i))).reverse ++ M.id_map := by
  induction insts generalizing M with
  | nil => simp
  | cons i is ih => simp [ih, insertInst, List.reverse_cons, List.append_assoc]

lemma foldl_insertInst_char_map (insts : List Instruction) (M : GenomeManipulator) :
    (List.foldl insertInst M insts).char_map
      = (insts.map (fun i => (i.char, i))).reverse ++ M.char_map := by
  induction insts generalizing M with
  | nil => simp
  | cons i is ih => simp [ih, insertInst, List.reverse_cons, List.append_assoc]

lemma foldl_insertInst_name_map (insts : List Instruction) (M : GenomeManipulator) :
    (List.foldl insertInst M insts).name_map
      = (insts.map (fun i => (i.name, i))).reverse ++ M.name_map := by
  induction insts generalizing M with
  | nil => simp
  | cons i is ih => simp [ih, insertInst, List.reverse_cons, List.append_assoc]

lemma lookupA_map_pair {α : Type} [DecidableEq α] (f : Instruction → α)
    (l : List Instruction) (k : α) :
    lookupA (l.map (fun i => (f i, i))) k = l.find? (fun i => decide (f i = k)) := by
  induction l with
  | nil => rfl
  | cons i is ih =>
    by_cases h : f i = k
    · simp [lookupA, List.find?, h]
    · simp [lookupA, List.find?, h, Ne.symm h, ih]

lemma lookupA_loadInsts_index (insts : List Instruction) (k : Int) :
    lookupA (loadInsts insts).index_map k
      = insts.reverse.find? (fun i => decide (i.index = k)) := by
  rw [loadInsts, foldl_insertInst_index_map]
  simp only [emptyGM, List.append_nil, ← List.map_reverse]
  exact lookupA_map_pair Instruction.index insts.reverse k

lemma lookupA_loadInsts_id (insts : List Instruction) (k : Int) :
    lookupA (loadInsts insts).id_map k
      = insts.reverse.find? (fun i => decide (i.id = k)) := by
  rw [loadInsts, foldl_insertInst_id_map]
  simp only [emptyGM, List.append_nil, ← List.map_reverse]
  exact lookupA_map_pair Instruction.id insts.reverse k

lemma lookupA_loadInsts_char (insts : List Instruction) (k : List Char) :
    lookupA (loadInsts insts).char_map k
      = insts.reverse.find? (fun i => decide (i.char = k)) := by
  rw [loadInsts, foldl_insertInst_char_map]
  simp only [emptyGM, List.append_nil, ← List.map_reverse]
  exact lookupA_map_pair Instruction.char insts.reverse k

lemma lookupA_loadInsts_name (insts : List Instruction) (k : List Char) :
    lookupA (loadInsts insts).name_map k
      = insts.reverse.find? (fun i => decide (i.name = k)) := by
  rw [loadInsts, foldl_insertInst_name_map]
  simp only [emptyGM, List.append_nil, ← List.map_reverse]
  exact lookupA_map_pair Instruction.name insts.reverse k

lemma find?_eq_self_of_nodup {α β : Type} [DecidableEq β] (f : α → β) (l : List α) (r : α)
    (hn : (l.map f).Nodup) (hr : r ∈ l) :
    l.find? (fun x => decide (f x = f r)) = some r := by
  induction l with
  | nil => simp at hr
  | cons a as ih =>
    rw [List.map_cons, List.nodup_cons] at hn
    rcases List.mem_cons.mp hr with h | h
    · subst h; simp [List.find?]
    · have hne : f a ≠ f r := fun he => hn.1 (by rw [he]; exact List.mem_map_of_mem f h)
      simp [List.find?, hne, ih hn.2 h]

lemma existsUnique_key {α β : Type} [DecidableEq β] (f : α → β) (l : List α) (r : α)
    (hn : (l.map f).Nodup) (hr : r ∈ l) :
    ∃! k : β, l.find? (fun x => decide (f x = k)) = some r := by
  refine ⟨f r, find?_eq_self_of_nodup f l r hn hr, ?_⟩
  intro k hk
  have hp := List.find?_some hk
  simp only [decide_eq_true_eq] at hp
  exact hp.symm

lemma dropWhile_eq_self_of_all {p : Char → Bool} {l : List Char}
    (h : ∀ c ∈ l, p c = false) : l.dropWhile p = l := by
  cases l with
  | nil => rfl
  | cons c cs => simp [List.dropWhile_cons, h c (List.mem_cons_self c cs)]

lemma cleanToken_all_nonspace {t : List Char} (h : cleanToken t = true) :
    ∀ c ∈ t, pySpace c = false := by
  have h2 : t.all (fun c => !pySpace c) = true := (Bool.and_eq_true _ _ |>.mp h).2
  intro c hc
  simpa using List.all_eq_true.mp h2 c hc

lemma cleanToken_not_isEmpty {t : List Char} (h : cleanToken t = true) :
    t.isEmpty = false := by
  have h1 : (!t.isEmpty) = true := (Bool.and_eq_true _ _ |>.mp h).1
  simpa using h1

lemma pyStrip_of_clean {t : List Char} (h : cleanToken t = true) : pyStrip t = t := by
  have hall := cleanToken_all_nonspace h
  unfold pyStrip
  rw [dropWhile_eq_self_of_all hall,
    dropWhile_eq_self_of_all (fun c hc => hall c (List.mem_reverse.mp hc)),
    List.reverse_reverse]

lemma cleanToken_no_newline {t : List Char} (h : cleanToken t = true) :
    ∀ c ∈ t, c ≠ '\n' := by
  intro c hc he
  have := cleanToken_all_nonspace h c hc
  rw [he] at this
  simp [pySpace] at this

lemma pySplitChar_ne_nil (sep : Char) (l : List Char) : pySplitChar sep l ≠ [] := by
  cases l with
  | nil => simp [pySplitChar]
  | cons c rest =>
    simp only [pySplitChar]
    cases h : pySplitChar sep rest with
    | nil => simp
    | cons a as =>
      by_cases hc : (c == sep) = true
      · simp [hc]
      · simp [hc]

lemma pySplitChar_append (name rest : List Char) (h : ∀ c ∈ name, c ≠ '\n') :
    pySplitChar '\n' (name ++ '\n' :: rest) = name :: pySplitChar '\n' rest := by
  induction name with
  | nil =>
    simp only [List.nil_append, pySplitChar]
    cases hsp : pySplitChar '\n' rest with
    | nil => exact absurd hsp (pySplitChar_ne_nil '\n' rest)
    | cons a as => simp
  | cons c cs ih =>
    have hc : (c == '\n') = false := by
      simpa using h c (List.mem_cons_self c cs)
    simp only [List.cons_append, pySplitChar, List.append_eq]
    rw [ih (fun a ha => h a (List.mem_cons_of_mem c ha))]
    simp [hc]

lemma convert_chars_append_error (M : GenomeManipulator) (s₁ s₂ : List Char) (c : Char)
    (h₁ : ∀ a ∈ s₁, (lookupA M.char_map [a]).isSome = true)
    (h₂ : lookupA M.char_map [c] = none) :
    convert_chars_to_names M (s₁ ++ c :: s₂) = .error (.unknownSymbol c) := by
  induction s₁ with
  | nil => simp [convert_chars_to_names, h₂]
  | cons a s₁' ih =>
    obtain ⟨inst, hinst⟩ :=
      Option.isSome_iff_exists.mp (h₁ a (List.mem_cons_self a s₁'))
    rw [List.cons_append]
    simp [convert_chars_to_names, hinst,
      ih (fun x hx => h₁ x (List.mem_cons_of_mem a hx))]

lemma convert_names_append_error (M : GenomeManipulator) (L₁ L₂ : List (List Char))
    (n : List Char)
    (h₁ : ∀ t ∈ L₁, (pyStrip t).isEmpty = true ∨ (lookupA M.name_map (pyStrip t)).isSome = true)
    (h₂ : (pyStrip n).isEmpty = false)
    (h₃ : lookupA M.name_map (pyStrip n) = none) :
    convert_names_to_chars M (L₁ ++ n :: L₂) = .error (.unknownName (pyStrip n)) := by
  induction L₁ with
  | nil => simp [convert_names_to_chars, h₂, h₃]
  | cons t L₁' ih =>
    have ih' := ih (fun x hx => h₁ x (List.mem_cons_of_mem t hx))
    by_cases hemp : (pyStrip t).isEmpty = true
    · rw [List.cons_append]
      simp [convert_names_to_chars, hemp, ih']
    · obtain ⟨inst, hinst⟩ := Option.isSome_iff_exists.mp
        ((h₁ t (List.mem_cons_self t L₁')).resolve_left hemp)
      rw [List.cons_append]
      simp [convert_names_to_chars, hemp, hinst, ih']

lemma parseHeaderAux_append_unknown (u : List Char)
    (h1 : pyStrip u ≠ "index".data) (h2 : pyStrip u ≠ "id".data)
    (h3 : pyStrip u ≠ "char".data) (h4 : pyStrip u ≠ "name".data) :
    ∀ (ts : List (List Char)) (i : Nat) (acc : ColIdx),
      parseHeaderAux (ts ++ [u]) i acc
        = ((parseHeaderAux ts i acc).1, (parseHeaderAux ts i acc).2 ++ [pyStrip u]) := by
  intro ts
  induction ts with
  | nil =>
    intro i acc
    simp [parseHeaderAux, h1, h2, h3, h4]
  | cons t ts' ih =>
    intro i acc
    by_cases c1 : pyStrip t = "index".data
    · simp [parseHeaderAux, c1, ih]
    · by_cases c2 : pyStrip t = "id".data
      · simp [parseHeaderAux, c1, c2, ih]
      · by_cases c3 : pyStrip t = "char".data
        · simp [parseHeaderAux, c1, c2, c3, ih]
        · by_cases c4 : pyStrip t = "name".data
          · simp [parseHeaderAux, c1, c2, c3, c4, ih]
          · simp [parseHeaderAux, c1, c2, c3, c4, ih]

lemma processLines_error_of_mem (cols : ColIdx) (lines : List (List Char))
    (l : List Char) (e : PyExc) :
    l ∈ lines → parseLine cols l = .error e →
    ∀ M, ∃ e', processLines cols lines M = .error e' := by
  induction lines with
  | nil => intro hl; simp at hl
  | cons l₀ rest ih =>
    intro hl he M
    cases hp : parseLine cols l₀ with
    | error e₀ => exact ⟨e₀, by simp [processLines, hp]⟩
    | ok inst =>
      have hl' : l ∈ rest := by
        rcases List.mem_cons.mp hl with h | h
        · subst h; rw [he] at hp; cases hp
        · exact h
      obtain ⟨e', he'⟩ := ih hl' he (insertInst M inst)
      exact ⟨e', by simp [processLines, hp, he']⟩

/-! ## Claim theorems -/

/-- C2: when every character of `s` is a key of the char mapping,
`convert_chars_to_names` returns one instruction name per input character,
in input order, each name (including the last) followed by a newline; in
particular, on the table with rows `(0,0,'a',"nop-A")` and
`(1,1,'b',"nop-B")`, converting `"ab"` yields `"nop-A\nnop-B\n"`. -/
theorem C2_chars_to_names :
    (∀ (M : GenomeManipulator) (s : List Char) (f : Char → Instruction),
      (∀ c ∈ s, lookupA M.char_map [c] = some (f c)) →
      convert_chars_to_names M s
        = .ok ((s.map (fun c => (f c).name ++ ['\n'])).flatten))
    ∧ convert_chars_to_names demoM "ab".data = .ok "nop-A\nnop-B\n".data := by
  constructor
  · intro M s f hf
    induction s with
    | nil => rfl
    | cons c s' ih =>
      simp [convert_chars_to_names, hf c (List.mem_cons_self c s'),
        ih (fun x hx => hf x (List.mem_cons_of_mem c hx))]
  · rfl

/-- C2 witness: the general part of `C2_chars_to_names` instantiated on the
two-row example table and the input `"ab"`. -/
theorem C2_witness :
    convert_chars_to_names demoM "ab".data
      = .ok (("ab".data.map (fun c =>
          ((if c = 'a' then nopA else nopB)).name ++ ['\n'])).flatten) :=
  C2_chars_to_names.1 demoM "ab".data (fun c => if c = 'a' then nopA else nopB)
    (by decide)

/-- C3: `convert_names_to_chars` trims every entry, emits nothing for
entries that are blank after trimming, and concatenates the chars of the
remaining entries in input order with no separator; consequently its result
is unchanged when the blank entries are removed from the input. -/
theorem C3_names_to_chars :
    (∀ (M : GenomeManipulator) (L : List (List Char)) (g : List Char → Instruction),
      (∀ t ∈ L, (pyStrip t).isEmpty = false →
        lookupA M.name_map (pyStrip t) = some (g (pyStrip t))) →
      convert_names_to_chars M L
        = .ok ((((L.map pyStrip).filter (fun t => !t.isEmpty)).map
            (fun t => (g t).char)).flatten))
    ∧ (∀ (M : GenomeManipulator) (L : List (List Char)),
      convert_names_to_chars M L
        = convert_names_to_chars M (L.filter (fun t => !(pyStrip t).isEmpty))) := by
  constructor
  · intro M L g hg
    induction L with
    | nil => rfl
    | cons t L' ih =>
      have ih' := ih (fun x hx h => hg x (List.mem_cons_of_mem t hx) h)
      by_cases hemp : (pyStrip t).isEmpty = true
      · simp [convert_names_to_chars, hemp, ih']
      · have hfound := hg t (List.mem_cons_self t L')
          (Bool.not_eq_true _ |>.mp hemp)
        simp [convert_names_to_chars, hemp, hfound, ih']
  · intro M L
    induction L with
    | nil => rfl
    | cons t L' ih =>
      by_cases hemp : (pyStrip t).isEmpty = true
      · simp [convert_names_to_chars, hemp, ih, List.filter_cons]
      · cases hl : lookupA M.name_map (pyStrip t) with
        | none => simp [convert_names_to_chars, hemp, hl, List.filter_cons]
        | some inst => simp [convert_names_to_chars, hemp, hl, ih, List.filter_cons]

/-- C3 witness: `C3_names_to_chars` instantiated on the example table and an
input with a blank and a whitespace-only entry interspersed. -/
theorem C3_witness :
    convert_names_to_chars demoM ["nop-A".data, "".data, "  ".data, "nop-B".data]
      = .ok (((( ["nop-A".data, "".data, "  ".data, "nop-B".data].map pyStrip).filter
          (fun t => !t.isEmpty)).map
            (fun t => ((if t = "nop-A".data then nopA else nopB)).char)).flatten) :=
  C3_names_to_chars.1 demoM ["nop-A".data, "".data, "  ".data, "nop-B".data]
    (fun t => if t = "nop-A".data then nopA else nopB) (by decide)

/-- C4: a conversion that meets a token absent from the relevant mapping
fails with an error naming that token — `unknownSymbol c` for the first
unmapped character in `convert_chars_to_names`, `unknownName` of the
trimmed entry for the first unmapped non-blank entry in
`convert_names_to_chars` — and returns no partial output. -/
theorem C4_unknown_token :
    (∀ (M : GenomeManipulator) (s₁ s₂ : List Char) (c : Char),
      (∀ a ∈ s₁, (lookupA M.char_map [a]).isSome = true) →
      lookupA M.char_map [c] = none →
      convert_chars_to_names M (s₁ ++ c :: s₂) = .error (.unknownSymbol c))
    ∧ (∀ (M : GenomeManipulator) (L₁ L₂ : List (List Char)) (n : List Char),
      (∀ t ∈ L₁, (pyStrip t).isEmpty = true
        ∨ (lookupA M.name_map (pyStrip t)).isSome = true) →
      (pyStrip n).isEmpty = false →
      lookupA M.name_map (pyStrip n) = none →
      convert_names_to_chars M (L₁ ++ n :: L₂) = .error (.unknownName (pyStrip n))) :=
  ⟨convert_chars_append_error, convert_names_append_error⟩

/-- C4 witness: on the example table, `convert_chars_to_names "abx"` yields
`unknownSymbol 'x'` (not a truncated result), and an unknown name yields
`unknownName` of that name. -/
theorem C4_witness :
    convert_chars_to_names demoM ("ab".data ++ 'x' :: [])
      = .error (.unknownSymbol 'x')
    ∧ convert_names_to_chars demoM (["nop-A".data] ++ "nop-X".data :: [])
      = .error (.unknownName (pyStrip "nop-X".data)) :=
  ⟨C4_unknown_token.1 demoM "ab".data [] 'x' (by decide) (by decide),
   C4_unknown_token.2 demoM ["nop-A".data] [] "nop-X".data
     (by decide) (by decide) (by decide)⟩

/-- C5: a table file whose first line's first token (after stripping
commas) is numeric is treated as headerless: the load uses the default
column order `index=0, id=1, char=2, name=3` and processes every line of
the file — including the first — as a data row. -/
theorem C5_headerless_default_cols (l₀ : List Char) (rest : List (List Char))
    (t : List Char) (ts : List (List Char))
    (hsplit : pySplitWS (stripCommas l₀) = t :: ts)
    (hdigit : pyIsDigit (stripCommas t) = true) :
    read_instruction_set_file (l₀ :: rest)
      = processLines ⟨0, 1, 2, 3⟩ (l₀ :: rest) emptyGM := by
  unfold read_instruction_set_file
  simp [hsplit, hdigit, defaultCols]

/-- C5 witness: `C5_headerless_default_cols` on a concrete headerless file;
row 0 is loaded as data, not skipped. -/
theorem C5_witness :
    read_instruction_set_file ["0 0 a nop-A".data, "1 1 b nop-B".data]
      = processLines ⟨0, 1, 2, 3⟩ ["0 0 a nop-A".data, "1 1 b nop-B".data] emptyGM :=
  C5_headerless_default_cols "0 0 a nop-A".data ["1 1 b nop-B".data]
    "0".data ["0".data, "a".data, "nop-A".data] (by decide) (by decide)

/-- C10: `write_to_file` on the empty string raises `IndexError` from the
`s[-1]` trailing-newline check before the file is opened, leaving the file
system untouched; on any nonempty string it writes the string, appending a
trailing newline exactly when one is missing. -/
theorem C10_write_empty_string :
    (∀ (fs : FileSys) (filename : List Char),
      write_to_file fs filename [] = (.error .indexError, fs))
    ∧ (∀ (fs : FileSys) (filename s : List Char) (c : Char),
      write_to_file fs filename (s ++ [c])
        = (.ok (), (filename,
            if c != '\n' then s ++ [c] ++ ['\n'] else s ++ [c]) :: fs)) := by
  constructor
  · intro fs filename; rfl
  · intro fs filename s c
    simp [write_to_file, List.getLast?_concat]

/-- C1: over a loaded table satisfying the data-model invariant — the name
column is duplicate-free, and every name is a whitespace-free nonempty
token, as `str.split()`-produced tokens always are — converting a string of
mapped chars to names and splitting the result on newlines feeds
`convert_names_to_chars` back to exactly the original string. -/
theorem C1_roundtrip (insts : List Instruction) (s : List Char)
    (hclean : ∀ i ∈ insts, cleanToken i.name = true)
    (hnodup : (insts.map Instruction.name).Nodup)
    (hvalid : ∀ c ∈ s, (lookupA (loadInsts insts).char_map [c]).isSome = true) :
    ∃ out, convert_chars_to_names (loadInsts insts) s = .ok out
      ∧ convert_names_to_chars (loadInsts insts) (pySplitChar '\n' out) = .ok s := by
  induction s with
  | nil => exact ⟨[], rfl, rfl⟩
  | cons c s' ih =>
    obtain ⟨inst, hinst⟩ :=
      Option.isSome_iff_exists.mp (hvalid c (List.mem_cons_self c s'))
    obtain ⟨out', hout', hnames'⟩ := ih (fun x hx => hvalid x (List.mem_cons_of_mem c hx))
    refine ⟨inst.name ++ '\n' :: out', ?_, ?_⟩
    · simp [convert_chars_to_names, hinst, hout']
    · rw [lookupA_loadInsts_char] at hinst
      have hmem : inst ∈ insts :=
        List.mem_reverse.mp (List.mem_of_find?_eq_some hinst)
      have hchar : inst.char = [c] := by
        have := List.find?_some hinst
        simpa using this
      have hcl := hclean inst hmem
      rw [pySplitChar_append inst.name out' (cleanToken_no_newline hcl)]
      have hlook : lookupA (loadInsts insts).name_map inst.name = some inst := by
        rw [lookupA_loadInsts_name]
        exact find?_eq_self_of_nodup Instruction.name insts.reverse inst
          (by rw [List.map_reverse]; exact List.nodup_reverse.mpr hnodup)
          (List.mem_reverse.mpr hmem)
      simp [convert_names_to_chars, pyStrip_of_clean hcl, cleanToken_not_isEmpty hcl,
        hlook, hnames', hchar]

/-- C1 witness: `C1_roundtrip` on the two-row example table and `"ab"`. -/
theorem C1_witness :
    ∃ out, convert_chars_to_names (loadInsts demoInsts) "ab".data = .ok out
      ∧ convert_names_to_chars (loadInsts demoInsts) (pySplitChar '\n' out)
          = .ok "ab".data :=
  C1_roundtrip demoInsts "ab".data (by decide) (by decide) (by decide)

/-- C6 counterexample: the literal header line `id,name,char,index` of the
claim's example does not reorder the columns.  `line.replace(',', '')`
deletes the commas outright, gluing the line into the single token
`idnamecharindex`; that token is merely warned about, the column order
stays at the default, and loading the row `5 nop-X x 7` (index 7, id 5
under the declared order) then aborts with a `ValueError` from parsing
`nop-X` as the id — instead of mapping the fields by the declared order. -/
theorem C6_counterexample :
    pySplitWS (stripCommas "id,name,char,index".data) = ["idnamecharindex".data]
    ∧ parseHeader ["idnamecharindex".data] = (⟨0, 1, 2, 3⟩, ["idnamecharindex".data])
    ∧ read_instruction_set_file ["id,name,char,index".data, "5 nop-X x 7".data]
        = .error .valueError :=
  ⟨rfl, rfl, rfl⟩

/-- C6 (amended): when the first line's first token is not numeric the file
is loaded in header mode and never aborts in the header scan: the remaining
lines are processed with exactly the column positions the header's
whitespace-separated tokens declare (commas are deleted, not treated as
separators, so a comma must be followed by whitespace to separate tokens).
The four recognised names may come in any order — `id name char index`
assigns id=0, name=1, char=2, index=3 — unrecognised tokens are collected
as warnings without aborting, and each subsequent row's fields are read at
the declared positions. -/
theorem C6_header_reordering :
    (∀ (l₀ : List Char) (rest : List (List Char)) (t : List Char)
        (ts : List (List Char)),
      pySplitWS (stripCommas l₀) = t :: ts →
      pyIsDigit (stripCommas t) = false →
      read_instruction_set_file (l₀ :: rest)
        = processLines (parseHeader (t :: ts)).1 rest emptyGM)
    ∧ parseHeader ["id".data, "name".data, "char".data, "index".data]
        = (⟨3, 0, 2, 1⟩, [])
    ∧ (∀ (ts : List (List Char)) (u : List Char),
      pyStrip u ≠ "index".data → pyStrip u ≠ "id".data →
      pyStrip u ≠ "char".data → pyStrip u ≠ "name".data →
      parseHeader (ts ++ [u]) = ((parseHeader ts).1, (parseHeader ts).2 ++ [pyStrip u]))
    ∧ read_instruction_set_file ["id, name, char, index".data, "5, nop-X, x, 7".data]
        = .ok (loadInsts [⟨7, 5, "x".data, "nop-X".data⟩]) := by
  refine ⟨?_, rfl, ?_, rfl⟩
  · intro l₀ rest t ts hsplit hdigit
    unfold read_instruction_set_file
    simp [hsplit, hdigit]
  · intro ts u h1 h2 h3 h4
    exact parseHeaderAux_append_unknown u h1 h2 h3 h4 ts 0 defaultCols

/-- C6 witness: `C6_header_reordering` on the concrete header
`id, name, char, index` and on an appended unknown token `foo`. -/
theorem C6_witness :
    read_instruction_set_file ["id, name, char, index".data, "5, nop-X, x, 7".data]
      = processLines
          (parseHeader ["id".data, "name".data, "char".data, "index".data]).1
          ["5, nop-X, x, 7".data] emptyGM
    ∧ parseHeader (["id".data, "name".data, "char".data, "index".data] ++ ["foo".data])
      = ((parseHeader ["id".data, "name".data, "char".data, "index".data]).1,
         (parseHeader ["id".data, "name".data, "char".data, "index".data]).2
           ++ [pyStrip "foo".data]) :=
  ⟨C6_header_reordering.1 "id, name, char, index".data ["5, nop-X, x, 7".data]
      "id".data ["name".data, "char".data, "index".data] (by decide) (by decide),
   C6_header_reordering.2.2.1 ["id".data, "name".data, "char".data, "index".data]
      "foo".data (by decide) (by decide) (by decide) (by decide)⟩

/-- C7 counterexample: loading a file whose two rows share index `0` but
have distinct chars leaves the first row's record reachable through the
char mapping while it appears under *no* key of the index mapping (the
second row overwrote index `0`) — refuting "every reachable record appears
under exactly one key in each of the four mappings". -/
theorem C7_counterexample :
    read_instruction_set_file dupFile = .ok (loadInsts [nopA, dupB])
    ∧ lookupA (loadInsts [nopA, dupB]).char_map "a".data = some nopA
    ∧ ¬ (∃ k : Int, lookupA (loadInsts [nopA, dupB]).index_map k = some nopA) := by
  refine ⟨rfl, rfl, ?_⟩
  rintro ⟨k, hk⟩
  rw [lookupA_loadInsts_index] at hk
  have h0 : nopA.index = k := by simpa using List.find?_some hk
  rw [← h0] at hk
  exact absurd hk (by decide)

/-- C7 (amended): lookups follow last-loaded-wins dictionary overwrite —
a key retrieves the *last* loaded record carrying it — and when the four
key columns of the loaded rows are each duplicate-free, every record
reachable from any of the four mappings appears under exactly one key in
each of the four mappings.  (In the functional embedding the table is
read-only by construction: conversions take it as an unmodified argument.) -/
theorem C7_mapping_invariant :
    (∀ (insts : List Instruction) (k : List Char),
      lookupA (loadInsts insts).char_map k
        = insts.reverse.find? (fun i => decide (i.char = k)))
    ∧ (∀ insts : List Instruction,
      (insts.map Instruction.index).Nodup → (insts.map Instruction.id).Nodup →
      (insts.map Instruction.char).Nodup → (insts.map Instruction.name).Nodup →
      ∀ r : Instruction, reachableFrom (loadInsts insts) r →
        (∃! k : Int, lookupA (loadInsts insts).index_map k = some r)
        ∧ (∃! k : Int, lookupA (loadInsts insts).id_map k = some r)
        ∧ (∃! k : List Char, lookupA (loadInsts insts).char_map k = some r)
        ∧ (∃! k : List Char, lookupA (loadInsts insts).name_map k = some r)) := by
  refine ⟨lookupA_loadInsts_char, ?_⟩
  intro insts h1 h2 h3 h4 r hr
  have hmem : r ∈ insts := by
    rcases hr with ⟨k, hk⟩ | ⟨k, hk⟩ | ⟨k, hk⟩ | ⟨k, hk⟩
    · rw [lookupA_loadInsts_index] at hk
      exact List.mem_reverse.mp (List.mem_of_find?_eq_some hk)
    · rw [lookupA_loadInsts_id] at hk
      exact List.mem_reverse.mp (List.mem_of_find?_eq_some hk)
    · rw [lookupA_loadInsts_char] at hk
      exact List.mem_reverse.mp (List.mem_of_find?_eq_some hk)
    · rw [lookupA_loadInsts_name] at hk
      exact List.mem_reverse.mp (List.mem_of_find?_eq_some hk)
  have hmr : r ∈ insts.reverse := List.mem_reverse.mpr hmem
  refine ⟨?_, ?_, ?_, ?_⟩
  · have := existsUnique_key Instruction.index insts.reverse r
      (by rw [List.map_reverse]; exact List.nodup_reverse.mpr h1) hmr
    simpa only [lookupA_loadInsts_index] using this
  · have := existsUnique_key Instruction.id insts.reverse r
      (by rw [List.map_reverse]; exact List.nodup_reverse.mpr h2) hmr
    simpa only [lookupA_loadInsts_id] using this
  · have := existsUnique_key Instruction.char insts.reverse r
      (by rw [List.map_reverse]; exact List.nodup_reverse.mpr h3) hmr
    simpa only [lookupA_loadInsts_char] using this
  · have := existsUnique_key Instruction.name insts.reverse r
      (by rw [List.map_reverse]; exact List.nodup_reverse.mpr h4) hmr
    simpa only [lookupA_loadInsts_name] using this

/-- C7 witness: `C7_mapping_invariant` on the duplicate-free example table,
for the record `nopA` reached through the index mapping. -/
theorem C7_witness :
    (∃! k : Int, lookupA (loadInsts demoInsts).index_map k = some nopA)
    ∧ (∃! k : Int, lookupA (loadInsts demoInsts).id_map k = some nopA)
    ∧ (∃! k : List Char, lookupA (loadInsts demoInsts).char_map k = some nopA)
    ∧ (∃! k : List Char, lookupA (loadInsts demoInsts).name_map k = some nopA) :=
  C7_mapping_invariant.2 demoInsts (by decide) (by decide) (by decide) (by decide)
    nopA (Or.inl ⟨0, by decide⟩)

/-- C8 counterexample: on an unknown symbol the reference entry point does
print the error and the offending token, but `throw_error` terminates via
`quit()`, i.e. `SystemExit(None)`, whose process exit status is `0` — not
the non-zero status the claim asserts. -/
theorem C8_counterexample :
    runConversionProcess (convert_chars_to_names demoM ['x'])
      = ("\x1b[91mError!\x1b[0m Unknown symbol: x".data, 0) := rfl

/-- C8 (amended): whenever a conversion meets an unknown symbol or an
unknown name, the command-line entry point reports the error and the
offending token and then terminates the process — but with exit status `0`,
because `throw_error` ends in `quit()`, which raises `SystemExit(None)`. -/
theorem C8_error_reporting :
    (∀ (M : GenomeManipulator) (s₁ s₂ : List Char) (c : Char),
      (∀ a ∈ s₁, (lookupA M.char_map [a]).isSome = true) →
      lookupA M.char_map [c] = none →
      runConversionProcess (convert_chars_to_names M (s₁ ++ c :: s₂))
        = ("\x1b[91mError!\x1b[0m Unknown symbol: ".data ++ [c], 0))
    ∧ (∀ (M : GenomeManipulator) (L₁ L₂ : List (List Char)) (n : List Char),
      (∀ t ∈ L₁, (pyStrip t).isEmpty = true
        ∨ (lookupA M.name_map (pyStrip t)).isSome = true) →
      (pyStrip n).isEmpty = false →
      lookupA M.name_map (pyStrip n) = none →
      runConversionProcess (convert_names_to_chars M (L₁ ++ n :: L₂))
        = ("\x1b[91mError!\x1b[0m Unknown name: ".data ++ pyStrip n, 0)) := by
  constructor
  · intro M s₁ s₂ c h₁ h₂
    rw [convert_chars_append_error M s₁ s₂ c h₁ h₂]
    rfl
  · intro M L₁ L₂ n h₁ h₂ h₃
    rw [convert_names_append_error M L₁ L₂ n h₁ h₂ h₃]
    rfl

/-- C8 witness: `C8_error_reporting` on the example table, for the unknown
symbol in `"abx"` and for the unknown name `nop-X`. -/
theorem C8_witness :
    runConversionProcess (convert_chars_to_names demoM ("ab".data ++ 'x' :: []))
      = ("\x1b[91mError!\x1b[0m Unknown symbol: ".data ++ ['x'], 0)
    ∧ runConversionProcess
        (convert_names_to_chars demoM (["nop-A".data] ++ "nop-X".data :: []))
      = ("\x1b[91mError!\x1b[0m Unknown name: ".data ++ pyStrip "nop-X".data, 0) :=
  ⟨C8_error_reporting.1 demoM "ab".data [] 'x' (by decide) (by decide),
   C8_error_reporting.2 demoM ["nop-A".data] [] "nop-X".data
     (by decide) (by decide) (by decide)⟩

/-- C9: a data line whose index or id field is non-numeric makes the parse
fail with a `ValueError`; when index and id parse and all four columns are
present the row is accepted with its char and name fields taken as literal
tokens, never parsed; and a file containing such a failing line makes the
whole load fail rather than succeed. -/
theorem C9_nonnumeric_fields :
    (∀ (cols : ColIdx) (line tIndex : List Char),
      (pySplitWS (stripCommas line))[cols.index]? = some tIndex →
      pyInt tIndex = none →
      parseLine cols line = .error .valueError)
    ∧ (∀ (cols : ColIdx) (line tIndex tId : List Char) (vIndex : Int),
      (pySplitWS (stripCommas line))[cols.index]? = some tIndex →
      pyInt tIndex = some vIndex →
      (pySplitWS (stripCommas line))[cols.id]? = some tId →
      pyInt tId = none →
      parseLine cols line = .error .valueError)
    ∧ (∀ (cols : ColIdx) (line tIndex tId tChar tName : List Char) (vIndex vId : Int),
      (pySplitWS (stripCommas line))[cols.index]? = some tIndex →
      pyInt tIndex = some vIndex →
      (pySplitWS (stripCommas line))[cols.id]? = some tId →
      pyInt tId = some vId →
      (pySplitWS (stripCommas line))[cols.char]? = some tChar →
      (pySplitWS (stripCommas line))[cols.name]? = some tName →
      parseLine cols line = .ok ⟨vIndex, vId, tChar, tName⟩)
    ∧ (∀ (cols : ColIdx) (lines : List (List Char)) (l : List Char) (e : PyExc),
      l ∈ lines → parseLine cols l = .error e →
      ∀ M : GenomeManipulator, ∃ e', processLines cols lines M = .error e') := by
  refine ⟨?_, ?_, ?_, processLines_error_of_mem⟩
  · intro cols line tIndex hget hint
    simp [parseLine, hget, hint]
  · intro cols line tIndex tId vIndex hget hint hget2 hint2
    simp [parseLine, hget, hint, hget2, hint2]
  · intro cols line tIndex tId tChar tName vIndex vId hg1 hi1 hg2 hi2 hg3 hg4
    simp [parseLine, hg1, hi1, hg2, hi2, hg3, hg4]

/-- C9 witness: `C9_nonnumeric_fields` on concrete rows — a non-numeric
index, a non-numeric id, a fully valid row with literal char/name tokens,
and a file whose second line fails. -/
theorem C9_witness :
    parseLine ⟨0, 1, 2, 3⟩ "zz 0 a nop-A".data = .error .valueError
    ∧ parseLine ⟨0, 1, 2, 3⟩ "0 zz a nop-A".data = .error .valueError
    ∧ parseLine ⟨0, 1, 2, 3⟩ "0 0 a nop-A".data = .ok ⟨0, 0, "a".data, "nop-A".data⟩
    ∧ (∃ e', processLines ⟨0, 1, 2, 3⟩ ["0 0 a nop-A".data, "0 zz a nop-A".data]
        emptyGM = .error e') :=
  ⟨C9_nonnumeric_fields.1 ⟨0, 1, 2, 3⟩ "zz 0 a nop-A".data "zz".data
      (by decide) (by decide),
   C9_nonnumeric_fields.2.1 ⟨0, 1, 2, 3⟩ "0 zz a nop-A".data "0".data "zz".data 0
      (by decide) (by decide) (by decide) (by decide),
   C9_nonnumeric_fields.2.2.1 ⟨0, 1, 2, 3⟩ "0 0 a nop-A".data "0".data "0".data
      "a".data "nop-A".data 0 0
      (by decide) (by decide) (by decide) (by decide) (by decide) (by decide),
   C9_nonnumeric_fields.2.2.2 ⟨0, 1, 2, 3⟩
      ["0 0 a nop-A".data, "0 zz a nop-A".data] "0 zz a nop-A".data .valueError
      (by decide) rfl emptyGM⟩

end GenomeManip
